import Mathlib

set_option maxRecDepth 8000

/-!
Verification of the deployer-resolution and wallet-provenance logic of
fairscore-app/src/services/solscan.js, shallowly embedded in Lean.

Modelling conventions:
* JS strings that may be null/undefined are modelled as `String` with `""`
  standing for the absent value wherever the code only tests truthiness
  (null, undefined and `""` are all falsy and are treated identically by
  the code), and as `Option String` where the null/non-null distinction is
  observable in a returned record field.
* A missing numeric `timestamp`/`blockTime` is modelled as `0`: the code
  only uses these through `|| 0` and truthiness tests, under which
  `undefined` and `0` behave identically.
* Network effects are modelled by an explicit environment `Env` of oracle
  functions; a backend call that throws (or a non-ok HTTP response) is a
  `none` / `Except.error` oracle answer.  Every embedded function also
  returns the list of gateway calls it issued, so that call counts are
  provable.
* `Math.floor` on a possibly negative quotient is `Int.fdiv`.
-/

namespace FairScore

/-- A Helius enriched-API native (SOL) transfer record. -/
structure NativeTransfer where
  fromUserAccount : String
  toUserAccount : String
  amount : Nat
  deriving DecidableEq

/-- A Helius enriched-API token transfer record (only the mint is read). -/
structure TokenTransfer where
  mint : String
  deriving DecidableEq

/-- A Helius enriched-API transaction record, with exactly the fields the
code reads: timestamp, feePayer, signature, nativeTransfers, source, type,
tokenTransfers. -/
structure HeliusTx where
  timestamp : Nat
  feePayer : String
  signature : Option String
  nativeTransfers : List NativeTransfer
  source : String
  txType : String
  tokenTransfers : List TokenTransfer
  deriving DecidableEq

/-- An entry of `accountKeys` in a parsed RPC transaction: either a bare
string (in which case the code treats `signer` as false) or an object with
`pubkey` and `signer` fields. -/
inductive AccountKey where
  | str (s : String)
  | obj (pubkey : String) (signer : Bool)
  deriving DecidableEq

/-- A parsed instruction as read by getDeployerInfoViaRPC:
`parsed.type`, `program`, `parsed.info.destination`, `parsed.info.source`
(with `""` for an absent source/destination). -/
structure ParsedIx where
  ixType : String
  program : String
  destination : String
  sourceAcct : String
  deriving DecidableEq

/-- One entry of a getSignaturesForAddress response. -/
structure SigInfo where
  signature : String
  blockTime : Nat
  deriving DecidableEq

/-- A parsed RPC transaction (getTransaction with jsonParsed encoding),
with the fields present in such responses that the embedded functions may
inspect.  The code under verification reads `accountKeys`, `instructions`
and `innerInstructions`; `logMessages` is carried along because real
responses contain it (the code never reads it). -/
structure RpcTx where
  accountKeys : List AccountKey
  instructions : List ParsedIx
  innerInstructions : List (List ParsedIx)
  logMessages : List String
  deriving DecidableEq

/-- A record of one outgoing gateway/network call. -/
inductive Call where
  | heliusFetch (address : String) (limit : Nat)
  | rpcSig (address : String) (limit : Nat)
  | rpcTx (sig : String)
  deriving DecidableEq

/-- Result record of getDeployerInfo and its backends. -/
structure DeployerInfo where
  deployerAge : Option Int
  fundedBy : Option String
  fundingTx : Option String
  deriving DecidableEq

/-- Result entry of getDeployerCreatedTokens.  The code renders
`createdAt` as an ISO string of the timestamp (or null when the timestamp
is falsy); we keep the timestamp itself, which carries the same
information. -/
structure CreatedToken where
  mint : String
  createdAt : Option Nat
  deriving DecidableEq

/-- The external world: wall-clock time and the three backends.
`heliusTxs a l` is the parsed JSON of
GET /v0/addresses/a/transactions?limit=l (`none` when the fetch threw,
the response was not ok, or the body was not a usable array);
`rpcSignatures` / `rpcGetTx` model rpcCall, whose `Except.error` is the
"All RPC endpoints failed" throw and whose `Option` is a null result. -/
structure Env where
  nowMs : Nat
  heliusConfigured : Bool
  heliusTxs : String → Nat → Option (List HeliusTx)
  rpcSignatures : String → Nat → Except Unit (Option (List SigInfo))
  rpcGetTx : String → Except Unit (Option RpcTx)

/-- Known pump.fun / platform mint authorities (solscan.js KNOWN_MINT_AUTHORITIES). -/
def KNOWN_MINT_AUTHORITIES : List String :=
  [ "TSLvdd1pWpHVjahSpsvCXUbgwsL3JAcvokwaKt1eokM",
    "39azUYFWPz3VHgKCf3VChUwbpURdCHRxjWVowf5jUJjg",
    "Ce6TQqeHC9p8KetsN6JsjHK7UTZk7nasjjnr7XxXp9F1" ]

/-- Known program IDs to skip when looking for a deployer (solscan.js KNOWN_PROGRAMS). -/
def KNOWN_PROGRAMS : List String :=
  [ "11111111111111111111111111111111",
    "TokenkegQfeZyiNwAJbNbGKPFXCWuBvf9Ss623VQ5DA",
    "ATokenGPvbdGVxr1b2hvZbsiqW5xWH25efTNsLJA8knL",
    "6EF8rrecthR5Dkzon8Nwu78hRvfCKubJ14M5uBEwF6P",
    "ComputeBudget111111111111111111111111111111",
    "Sysvar1111111111111111111111111111111111111",
    "SysvarRent111111111111111111111111111111111" ]

/-- JS String.prototype.endsWith, on the ASCII (base58 / tag) strings the
code applies it to: a character-level suffix test. -/
def strEndsWith (s tail : String) : Bool :=
  List.isSuffixOf tail.data s.data

/-- JS String.prototype.toLowerCase, on the ASCII strings the code
applies it to: character-wise lowering. -/
def strToLower (s : String) : String :=
  ⟨s.data.map Char.toLower⟩

/-- solscan.js isKnownProgramOrAuthority: true for a falsy (null/empty)
address, a known mint authority, a known program, or an address ending in
a run of 22 ones (system-derived pattern). -/
def isKnownProgramOrAuthority (pubkey : String) : Bool :=
  if pubkey == "" then true
  else if KNOWN_MINT_AUTHORITIES.contains pubkey then true
  else if KNOWN_PROGRAMS.contains pubkey then true
  else if strEndsWith pubkey "1111111111111111111111" then true
  else false

/-- Stable insertion of a transaction into a timestamp-ascending list,
placing the new element after existing elements of equal timestamp —
the behaviour of JS Array.prototype.sort (a stable sort) with comparator
(a, b) => (a.timestamp || 0) - (b.timestamp || 0). -/
def insertTs (t : HeliusTx) : List HeliusTx → List HeliusTx
  | [] => [t]
  | h :: rest =>
    if h.timestamp ≤ t.timestamp then h :: insertTs t rest else t :: h :: rest

/-- Stable sort of Helius transactions by ascending timestamp. -/
def sortTs (l : List HeliusTx) : List HeliusTx :=
  l.foldl (fun acc t => insertTs t acc) []

/-- Whole-days age computed by the code at wall-clock `nowMs` milliseconds
for an oldest-activity timestamp `tsSec` seconds.  Both call sites compute
the same value: Math.floor((Date.now() / 1000 - ts) / 86400) in
getDeployerInfoViaHelius and Math.floor((Date.now() - bt * 1000) / 86400000)
in getDeployerInfoViaRPC; both equal the floor of
(nowMs - 1000 * tsSec) / 86400000. -/
def ageInDays (nowMs : Nat) (tsSec : Nat) : Int :=
  Int.fdiv ((nowMs : Int) - 1000 * (tsSec : Int)) 86400000

/-- The Helius branch of findRealDeployer: sort the fetched transactions
oldest-first and accept the oldest transaction's feePayer when it is
truthy and not a known program or authority. -/
def heliusDeployerLookup (env : Env) (tokenMint : String) : Option String :=
  match env.heliusTxs tokenMint 50 with
  | none => none
  | some transactions =>
    if transactions.length > 0 then
      match sortTs transactions with
      | [] => none
      | firstTx :: _ =>
        if firstTx.feePayer != "" && !(isKnownProgramOrAuthority firstTx.feePayer) then
          some firstTx.feePayer
        else none
    else none

/-- First account key flagged as signer whose pubkey is not a known
program or authority (the loop over accountKeys in findRealDeployerViaRPC;
a bare-string key counts as non-signer). -/
def firstQualifyingSigner : List AccountKey → Option String
  | [] => none
  | AccountKey.str _ :: rest => firstQualifyingSigner rest
  | AccountKey.obj pubkey signer :: rest =>
    if signer && !(isKnownProgramOrAuthority pubkey) then some pubkey
    else firstQualifyingSigner rest

/-- solscan.js findRealDeployerViaRPC: fetch the newest signature for the
mint (limit 1), fetch that transaction, and return the first qualifying
signer; on any missing data or thrown RPC error return reportedCreator.
The second component is the list of RPC calls issued. -/
def findRealDeployerViaRPC (env : Env) (tokenMint reportedCreator : String) :
    String × List Call :=
  match env.rpcSignatures tokenMint 1 with
  | Except.error _ => (reportedCreator, [Call.rpcSig tokenMint 1])
  | Except.ok none => (reportedCreator, [Call.rpcSig tokenMint 1])
  | Except.ok (some []) => (reportedCreator, [Call.rpcSig tokenMint 1])
  | Except.ok (some (s :: _)) =>
    match env.rpcGetTx s.signature with
    | Except.error _ =>
      (reportedCreator, [Call.rpcSig tokenMint 1, Call.rpcTx s.signature])
    | Except.ok none =>
      (reportedCreator, [Call.rpcSig tokenMint 1, Call.rpcTx s.signature])
    | Except.ok (some tx) =>
      match firstQualifyingSigner tx.accountKeys with
      | some pubkey => (pubkey, [Call.rpcSig tokenMint 1, Call.rpcTx s.signature])
      | none => (reportedCreator, [Call.rpcSig tokenMint 1, Call.rpcTx s.signature])

/-- solscan.js findRealDeployer: try the Helius lookup when configured;
otherwise (or when it yields nothing) return reportedCreator unless it is
a known mint authority, in which case fall back to the RPC lookup. -/
def findRealDeployer (env : Env) (tokenMint reportedCreator : String) :
    String × List Call :=
  if env.heliusConfigured then
    match heliusDeployerLookup env tokenMint with
    | some fp => (fp, [Call.heliusFetch tokenMint 50])
    | none =>
      if !(KNOWN_MINT_AUTHORITIES.contains reportedCreator) then
        (reportedCreator, [Call.heliusFetch tokenMint 50])
      else
        match findRealDeployerViaRPC env tokenMint reportedCreator with
        | (r, log) => (r, Call.heliusFetch tokenMint 50 :: log)
  else
    if !(KNOWN_MINT_AUTHORITIES.contains reportedCreator) then (reportedCreator, [])
    else findRealDeployerViaRPC env tokenMint reportedCreator

/-- The funding-transfer filter of getDeployerInfoViaHelius: an incoming
native transfer to the wallet from a truthy, different address, with
amount strictly above the 10000-lamport dust threshold. -/
def isQualifyingTransfer (walletAddress : String) (tr : NativeTransfer) : Bool :=
  tr.toUserAccount == walletAddress && tr.fromUserAccount != "" &&
    tr.fromUserAccount != walletAddress && decide (10000 < tr.amount)

/-- First qualifying native transfer of one transaction. -/
def firstQualifyingTransfer (walletAddress : String) :
    List NativeTransfer → Option NativeTransfer
  | [] => none
  | tr :: rest =>
    if isQualifyingTransfer walletAddress tr then some tr
    else firstQualifyingTransfer walletAddress rest

/-- The funding-source scan of getDeployerInfoViaHelius over the (sorted)
transaction list: the source and containing signature of the first
qualifying transfer, in list order. -/
def findFunding (walletAddress : String) :
    List HeliusTx → Option (String × Option String)
  | [] => none
  | tx :: rest =>
    match firstQualifyingTransfer walletAddress tx.nativeTransfers with
    | some tr => some (tr.fromUserAccount, tx.signature)
    | none => findFunding walletAddress rest

/-- solscan.js getDeployerInfoViaHelius: fetch up to 1000 transactions,
sort oldest-first, derive the age from the oldest timestamp, scan for the
first qualifying funding transfer; fundingTx is initialised to the oldest
transaction's signature and only overwritten when a funder is found.
An oracle failure is the thrown exception (Except.error), caught by the
caller getDeployerInfo. -/
def getDeployerInfoViaHelius (env : Env) (walletAddress : String) :
    Except Unit DeployerInfo × List Call :=
  match env.heliusTxs walletAddress 1000 with
  | none => (Except.error (), [Call.heliusFetch walletAddress 1000])
  | some transactions =>
    match sortTs transactions with
    | [] => (Except.ok ⟨none, none, none⟩, [Call.heliusFetch walletAddress 1000])
    | oldestTx :: rest =>
      let deployerAge : Option Int :=
        if oldestTx.timestamp != 0 then some (ageInDays env.nowMs oldestTx.timestamp)
        else none
      match findFunding walletAddress (oldestTx :: rest) with
      | some (src, sig) =>
        (Except.ok ⟨deployerAge, some src, sig⟩, [Call.heliusFetch walletAddress 1000])
      | none =>
        (Except.ok ⟨deployerAge, none, oldestTx.signature⟩,
         [Call.heliusFetch walletAddress 1000])

/-- First parsed system-program transfer instruction whose destination is
the wallet (the instruction loops of getDeployerInfoViaRPC). -/
def firstSysTransferTo (walletAddress : String) : List ParsedIx → Option ParsedIx
  | [] => none
  | ix :: rest =>
    if ix.ixType == "transfer" && ix.program == "system" &&
        ix.destination == walletAddress then some ix
    else firstSysTransferTo walletAddress rest

/-- The inner-instruction scan of getDeployerInfoViaRPC: within each
group, take the first matching transfer; if its source is falsy, continue
with the next group.  Returns `""` when no truthy source is found. -/
def scanInnerGroups (walletAddress : String) : List (List ParsedIx) → String
  | [] => ""
  | g :: rest =>
    match firstSysTransferTo walletAddress g with
    | some ix => if ix.sourceAcct != "" then ix.sourceAcct else scanInnerGroups walletAddress rest
    | none => scanInnerGroups walletAddress rest

/-- The funder extracted by getDeployerInfoViaRPC from the oldest
transaction: top-level instructions first, inner instructions only when
that yields a falsy value. -/
def rpcFundedBy (walletAddress : String) (tx : RpcTx) : String :=
  let outer : String :=
    match firstSysTransferTo walletAddress tx.instructions with
    | some ix => ix.sourceAcct
    | none => ""
  if outer != "" then outer else scanInnerGroups walletAddress tx.innerInstructions

/-- solscan.js getDeployerInfoViaRPC: one getSignaturesForAddress request
with limit 1000, oldest signature is the last entry of that single batch;
age from its blockTime; funder from the fetched oldest transaction.  Any
thrown RPC error is caught and yields the all-null record. -/
def getDeployerInfoViaRPC (env : Env) (walletAddress : String) :
    DeployerInfo × List Call :=
  match env.rpcSignatures walletAddress 1000 with
  | Except.error _ => (⟨none, none, none⟩, [Call.rpcSig walletAddress 1000])
  | Except.ok none => (⟨none, none, none⟩, [Call.rpcSig walletAddress 1000])
  | Except.ok (some []) => (⟨none, none, none⟩, [Call.rpcSig walletAddress 1000])
  | Except.ok (some (s :: rest)) =>
    let oldestSig := (s :: rest).getLast (List.cons_ne_nil s rest)
    let deployerAge : Option Int :=
      if oldestSig.blockTime != 0 then some (ageInDays env.nowMs oldestSig.blockTime)
      else none
    match env.rpcGetTx oldestSig.signature with
    | Except.error _ =>
      (⟨none, none, none⟩,
       [Call.rpcSig walletAddress 1000, Call.rpcTx oldestSig.signature])
    | Except.ok none =>
      (⟨deployerAge, none, some oldestSig.signature⟩,
       [Call.rpcSig walletAddress 1000, Call.rpcTx oldestSig.signature])
    | Except.ok (some tx) =>
      let fb := rpcFundedBy walletAddress tx
      (⟨deployerAge, if fb != "" then some fb else none, some oldestSig.signature⟩,
       [Call.rpcSig walletAddress 1000, Call.rpcTx oldestSig.signature])

/-- JS truthiness of a nullable string field. -/
def optStrTruthy : Option String → Bool
  | none => false
  | some s => s != ""

/-- JS truthiness of a nullable number field (0 is falsy). -/
def optIntTruthy : Option Int → Bool
  | none => false
  | some n => n != 0

/-- solscan.js getDeployerInfo: prefer Helius when configured; fall back
to RPC when the Helius call throws or when its result has a falsy
fundedBy and a falsy deployerAge. -/
def getDeployerInfo (env : Env) (walletAddress : String) :
    DeployerInfo × List Call :=
  if env.heliusConfigured then
    match getDeployerInfoViaHelius env walletAddress with
    | (Except.ok r, log) =>
      if optStrTruthy r.fundedBy || optIntTruthy r.deployerAge then (r, log)
      else
        match getDeployerInfoViaRPC env walletAddress with
        | (r2, log2) => (r2, log ++ log2)
    | (Except.error _, log) =>
      match getDeployerInfoViaRPC env walletAddress with
      | (r2, log2) => (r2, log ++ log2)
  else getDeployerInfoViaRPC env walletAddress

/-- The token-transfer loop of getDeployerCreatedTokens: collect mints
ending (case-insensitively) in "pump", skipping the excluded mint and
already-seen mints (case-insensitive dedup via the `seen` accumulator). -/
def processTransfers (excludeLower : String) (ts : Nat) :
    List TokenTransfer → List String → List CreatedToken →
      List String × List CreatedToken
  | [], seen, acc => (seen, acc)
  | tr :: rest, seen, acc =>
    if tr.mint != "" && strEndsWith (strToLower tr.mint) "pump" then
      if strToLower tr.mint != excludeLower && !(seen.contains (strToLower tr.mint)) then
        processTransfers excludeLower ts rest (strToLower tr.mint :: seen)
          (acc ++ [⟨tr.mint, if ts != 0 then some ts else none⟩])
      else processTransfers excludeLower ts rest seen acc
    else processTransfers excludeLower ts rest seen acc

/-- The transaction loop of getDeployerCreatedTokens: only transactions
whose feePayer is the queried wallet, tagged source PUMP_FUN and type
CREATE, contribute token transfers. -/
def processTxs (deployerAddress excludeLower : String) :
    List HeliusTx → List String → List CreatedToken →
      List String × List CreatedToken
  | [], seen, acc => (seen, acc)
  | tx :: rest, seen, acc =>
    if tx.feePayer == deployerAddress && tx.source == "PUMP_FUN" &&
        tx.txType == "CREATE" then
      match processTransfers excludeLower tx.timestamp tx.tokenTransfers seen acc with
      | (seen2, acc2) => processTxs deployerAddress excludeLower rest seen2 acc2
    else processTxs deployerAddress excludeLower rest seen acc

/-- solscan.js getDeployerCreatedTokens: fetch up to 100 of the wallet's
transactions and collect pump.fun CREATE mints; empty list when Helius is
not configured, the address is falsy, or the fetch fails. -/
def getDeployerCreatedTokens (env : Env) (deployerAddress excludeToken : String) :
    List CreatedToken × List Call :=
  if !env.heliusConfigured || deployerAddress == "" then ([], [])
  else
    match env.heliusTxs deployerAddress 100 with
    | none => ([], [Call.heliusFetch deployerAddress 100])
    | some transactions =>
      ((processTxs deployerAddress (strToLower excludeToken) transactions [] []).2,
       [Call.heliusFetch deployerAddress 100])

/-- All transfers of a transaction paired with its signature. -/
def heliusTxTransfers (tx : HeliusTx) : List (Option String × NativeTransfer) :=
  tx.nativeTransfers.map (fun tr => (tx.signature, tr))

/-- Modelled from the spec (spec.md section 4.4 step 2) as a refinement
companion to findFunding: the first native-currency transfer, in the
given transaction order, whose destination is the wallet, whose source is
a different non-empty address, and whose amount is above the dust
threshold; paired with the containing transaction's signature. -/
def specFirstFunding (walletAddress : String) (l : List HeliusTx) :
    Option (String × Option String) :=
  ((l.flatMap heliusTxTransfers).find? (fun p => isQualifyingTransfer walletAddress p.2)).map
    (fun p => (p.2.fromUserAccount, p.1))

/-- Every backend call fails: the Helius fetch throws or is non-ok, and
every RPC call exhausts all endpoints. -/
def AllBackendsFail (env : Env) : Prop :=
  (∀ a l, env.heliusTxs a l = none) ∧
  (∀ a l, env.rpcSignatures a l = Except.error ()) ∧
  (∀ s, env.rpcGetTx s = Except.error ())

/-- Predicate picking out signature-fetch calls in a call log. -/
def isSigFetchCall : Call → Bool
  | Call.rpcSig _ _ => true
  | _ => false

/-- Environment in which every backend call fails. -/
def envAllFail : Env :=
  { nowMs := 0
    heliusConfigured := true
    heliusTxs := fun _ _ => none
    rpcSignatures := fun _ _ => Except.error ()
    rpcGetTx := fun _ => Except.error () }

/-- Environment with no Helius API key configured and failing RPC. -/
def envNoHelius : Env :=
  { nowMs := 0
    heliusConfigured := false
    heliusTxs := fun _ _ => none
    rpcSignatures := fun _ _ => Except.error ()
    rpcGetTx := fun _ => Except.error () }

/-- A Helius transaction whose feePayer is an ordinary wallet. -/
def txC2 : HeliusTx :=
  { timestamp := 5
    feePayer := "HeliusFoundDeployerWallet"
    signature := some "sig1"
    nativeTransfers := []
    source := ""
    txType := ""
    tokenTransfers := [] }

/-- Environment whose Helius backend returns exactly txC2 for any address. -/
def envC2 : Env :=
  { nowMs := 0
    heliusConfigured := true
    heliusTxs := fun _ _ => some [txC2]
    rpcSignatures := fun _ _ => Except.error ()
    rpcGetTx := fun _ => Except.error () }

/-- An oldest transaction with no qualifying signer, but with an
inner-instruction parsed transfer from an ordinary wallet, and a
"creator:" log line naming that wallet. -/
def txC4 : RpcTx :=
  { accountKeys := [AccountKey.obj "TSLvdd1pWpHVjahSpsvCXUbgwsL3JAcvokwaKt1eokM" true]
    instructions := []
    innerInstructions := [[⟨"transfer", "system", "NewMintAccount", "RealHumanCreatorWallet"⟩]]
    logMessages := ["Program log: creator: RealHumanCreatorWallet"] }

/-- Environment whose RPC backend serves txC4 as the mint's only transaction. -/
def envC4 : Env :=
  { nowMs := 0
    heliusConfigured := false
    heliusTxs := fun _ _ => none
    rpcSignatures := fun _ _ => Except.ok (some [⟨"CreateSig", 50⟩])
    rpcGetTx := fun _ => Except.ok (some txC4) }

/-- Environment whose RPC backend always answers a getSignaturesForAddress
request with a full batch of exactly the requested limit. -/
def envC5 : Env :=
  { nowMs := 0
    heliusConfigured := false
    heliusTxs := fun _ _ => none
    rpcSignatures := fun _ l => Except.ok (some (List.replicate l ⟨"FullBatchSig", 100⟩))
    rpcGetTx := fun _ => Except.ok none }

/-- A wallet transaction carrying a timestamp and a signature but no
native transfers (so no funding source can be found in it). -/
def txC6 : HeliusTx :=
  { timestamp := 1000
    feePayer := ""
    signature := some "OldestTxSig"
    nativeTransfers := []
    source := ""
    txType := ""
    tokenTransfers := [] }

/-- Environment whose Helius backend returns exactly txC6. -/
def envC6 : Env :=
  { nowMs := 200000000000
    heliusConfigured := true
    heliusTxs := fun _ _ => some [txC6]
    rpcSignatures := fun _ _ => Except.error ()
    rpcGetTx := fun _ => Except.error () }

/-- A wallet transaction containing one qualifying incoming transfer. -/
def txC7 : HeliusTx :=
  { timestamp := 50
    feePayer := ""
    signature := some "FundingSig"
    nativeTransfers := [⟨"FunderWallet", "WalletW", 50000⟩]
    source := ""
    txType := ""
    tokenTransfers := [] }

/-- Environment whose Helius backend returns exactly txC7. -/
def envC7 : Env :=
  { nowMs := 100000000
    heliusConfigured := true
    heliusTxs := fun _ _ => some [txC7]
    rpcSignatures := fun _ _ => Except.error ()
    rpcGetTx := fun _ => Except.error () }

/-- A pump.fun CREATE transaction of wallet DeployerD minting AbCdpump. -/
def txC10 : HeliusTx :=
  { timestamp := 77
    feePayer := "DeployerD"
    signature := some "CreateSig10"
    nativeTransfers := []
    source := "PUMP_FUN"
    txType := "CREATE"
    tokenTransfers := [⟨"AbCdpump"⟩] }

/-- Environment whose Helius backend returns exactly txC10. -/
def envC10 : Env :=
  { nowMs := 0
    heliusConfigured := true
    heliusTxs := fun _ _ => some [txC10]
    rpcSignatures := fun _ _ => Except.error ()
    rpcGetTx := fun _ => Except.error () }

/-! Theorems. -/

/-- Helper: a signer accepted by the accountKeys scan is never a known
program or authority. -/
theorem firstQualifyingSigner_not_known :
    ∀ (keys : List AccountKey) (pk : String),
      firstQualifyingSigner keys = some pk → isKnownProgramOrAuthority pk = false := by
  intro keys
  induction keys with
  | nil => intro pk h; simp [firstQualifyingSigner] at h
  | cons k rest ih =>
    intro pk h
    cases k with
    | str s =>
      rw [firstQualifyingSigner] at h
      exact ih pk h
    | obj p b =>
      rw [firstQualifyingSigner] at h
      split at h
      · rename_i hc
        injection h with h2
        subst h2
        have := (Bool.and_eq_true _ _).mp hc
        simpa using this.2
      · exact ih pk h

/-- Helper: a feePayer accepted by the Helius branch of findRealDeployer
is never a known program or authority. -/
theorem heliusDeployerLookup_not_known (env : Env) (tokenMint fp : String)
    (h : heliusDeployerLookup env tokenMint = some fp) :
    isKnownProgramOrAuthority fp = false := by
  rw [heliusDeployerLookup] at h
  split at h
  · exact absurd h (by simp)
  · split at h
    · split at h
      · exact absurd h (by simp)
      · split at h
        · rename_i hc
          injection h with h2
          subst h2
          have := (Bool.and_eq_true _ _).mp hc
          simpa using this.2
        · exact absurd h (by simp)
    · exact absurd h (by simp)

/-- Helper: the RPC fallback resolver returns either the reported creator
or an address that is not a known program or authority. -/
theorem findRealDeployerViaRPC_not_known (env : Env) (tokenMint reportedCreator : String) :
    (findRealDeployerViaRPC env tokenMint reportedCreator).1 = reportedCreator ∨
      isKnownProgramOrAuthority (findRealDeployerViaRPC env tokenMint reportedCreator).1
        = false := by
  rw [findRealDeployerViaRPC]
  split
  · left; rfl
  · left; rfl
  · left; rfl
  · split
    · left; rfl
    · left; rfl
    · rename_i tx _
      cases hq : firstQualifyingSigner tx.accountKeys with
      | none => left; simp [hq]
      | some pk =>
        right
        simp only [hq]
        exact firstQualifyingSigner_not_known _ _ hq

/-- C1: findRealDeployer is total by construction (the embedding returns
a plain String: every throwing path of the source is caught), and when
every backend call fails it returns exactly the original reportedCreator,
for every input pair including empty strings. -/
theorem findRealDeployer_total_fallback (env : Env) (h : AllBackendsFail env)
    (tokenMint reportedCreator : String) :
    (findRealDeployer env tokenMint reportedCreator).1 = reportedCreator := by
  obtain ⟨h1, h2, _⟩ := h
  rw [findRealDeployer]
  split
  · rw [heliusDeployerLookup, h1]
    simp only
    split
    · rfl
    · rw [findRealDeployerViaRPC, h2]
  · split
    · rfl
    · rw [findRealDeployerViaRPC, h2]

/-- Witness for C1 at a concrete all-failing environment, with a
denylisted reportedCreator so that the RPC fallback path is exercised. -/
theorem findRealDeployer_total_fallback_witness :
    (findRealDeployer envAllFail "AnyMint" "TSLvdd1pWpHVjahSpsvCXUbgwsL3JAcvokwaKt1eokM").1
      = "TSLvdd1pWpHVjahSpsvCXUbgwsL3JAcvokwaKt1eokM" :=
  findRealDeployer_total_fallback envAllFail
    ⟨fun _ _ => rfl, fun _ _ => rfl, fun _ => rfl⟩ "AnyMint"
    "TSLvdd1pWpHVjahSpsvCXUbgwsL3JAcvokwaKt1eokM"

/-- C2 counterexample: with the Helius indexer configured, a
reportedCreator that is not a known non-user address and a mint without
the pump suffix, the resolver still issues a network call and returns the
indexer-derived feePayer instead of reportedCreator. -/
theorem findRealDeployer_fastpath_counterexample :
    isKnownProgramOrAuthority "CreatorWithoutAuthority" = false ∧
    strEndsWith (strToLower "MintWithoutPlatformTail") "pump" = false ∧
    (findRealDeployer envC2 "MintWithoutPlatformTail" "CreatorWithoutAuthority").1
      = "HeliusFoundDeployerWallet" ∧
    (findRealDeployer envC2 "MintWithoutPlatformTail" "CreatorWithoutAuthority").2
      = [Call.heliusFetch "MintWithoutPlatformTail" 50] :=
  ⟨by decide, by decide, by decide, by decide⟩

/-- C2 (amended): when the Helius indexer is not configured, and the
reportedCreator is not one of the known platform mint authorities (the
code checks only that sublist here, and never examines the mint suffix),
findRealDeployer returns reportedCreator unchanged with zero network
calls. -/
theorem findRealDeployer_fastpath_amended (env : Env) (tokenMint reportedCreator : String)
    (h1 : env.heliusConfigured = false)
    (h2 : KNOWN_MINT_AUTHORITIES.contains reportedCreator = false) :
    findRealDeployer env tokenMint reportedCreator = (reportedCreator, []) := by
  rw [findRealDeployer, h1, h2]
  rfl

/-- Witness for the amended C2 at a concrete environment. -/
theorem findRealDeployer_fastpath_amended_witness :
    findRealDeployer envNoHelius "AnyMint" "PlainCreatorWallet" = ("PlainCreatorWallet", []) :=
  findRealDeployer_fastpath_amended envNoHelius "AnyMint" "PlainCreatorWallet" rfl (by decide)

/-- C3 counterexample: the system program address is a known non-user
address, yet findRealDeployer returns it when it arrives as
reportedCreator (it is not in the mint-authority sublist guarding the
fallback). -/
theorem findRealDeployer_known_counterexample :
    isKnownProgramOrAuthority "11111111111111111111111111111111" = true ∧
    (findRealDeployer envNoHelius "SomeMint" "11111111111111111111111111111111").1
      = "11111111111111111111111111111111" :=
  ⟨by decide, by decide⟩

/-- C3 (amended): every address findRealDeployer discovers from a backend
(indexer feePayer or RPC signer scan) is never a known non-user address;
only the verbatim reportedCreator fallback can be one. -/
theorem findRealDeployer_discovered_not_known (env : Env) (tokenMint reportedCreator : String) :
    (findRealDeployer env tokenMint reportedCreator).1 = reportedCreator ∨
      isKnownProgramOrAuthority (findRealDeployer env tokenMint reportedCreator).1
        = false := by
  rw [findRealDeployer]
  split
  · cases hH : heliusDeployerLookup env tokenMint with
    | some fp =>
      simp only [hH]
      right
      exact heliusDeployerLookup_not_known env tokenMint fp hH
    | none =>
      simp only [hH]
      split
      · left; rfl
      · have := findRealDeployerViaRPC_not_known env tokenMint reportedCreator
        cases hR : findRealDeployerViaRPC env tokenMint reportedCreator with
        | mk r log =>
          rw [hR] at this
          simpa using this
  · split
    · left; rfl
    · exact findRealDeployerViaRPC_not_known env tokenMint reportedCreator

/-- C9: the address classifier is characterised exactly: true on the
empty (null) address, on every denylist entry, and on every address
ending in the 22-ones system pattern; false on every other address. -/
theorem isKnownProgramOrAuthority_spec :
    (isKnownProgramOrAuthority "" = true) ∧
    (∀ a, (KNOWN_MINT_AUTHORITIES.contains a || KNOWN_PROGRAMS.contains a) = true →
      isKnownProgramOrAuthority a = true) ∧
    (∀ a, strEndsWith a "1111111111111111111111" = true →
      isKnownProgramOrAuthority a = true) ∧
    (∀ a, a ≠ "" → KNOWN_MINT_AUTHORITIES.contains a = false →
      KNOWN_PROGRAMS.contains a = false →
      strEndsWith a "1111111111111111111111" = false →
      isKnownProgramOrAuthority a = false) := by
  refine ⟨by decide, ?_, ?_, ?_⟩
  · intro a h
    rw [isKnownProgramOrAuthority]
    cases hb : (a == "") <;> cases hk : KNOWN_MINT_AUTHORITIES.contains a <;>
      cases hp : KNOWN_PROGRAMS.contains a <;>
      cases hs : strEndsWith a "1111111111111111111111" <;>
      first
        | rfl
        | (rw [hk, hp] at h; exact absurd h (by decide))
  · intro a h
    rw [isKnownProgramOrAuthority, h]
    cases hb : (a == "") <;> cases hk : KNOWN_MINT_AUTHORITIES.contains a <;>
      cases hp : KNOWN_PROGRAMS.contains a <;> rfl
  · intro a h1 h2 h3 h4
    rw [isKnownProgramOrAuthority, h2, h3, h4, beq_eq_false_iff_ne.mpr h1]
    rfl

/-- C4: at txC4 the oldest transaction has no qualifying signer, while
its inner instructions contain a parsed transfer whose source is not a
known non-user address (also named by a creator log line); the RPC
resolver nevertheless returns the reportedCreator fallback, because the
code implements only the signer scan, not the inner-instruction or
log-message strategies the documentation describes. -/
theorem findRealDeployerViaRPC_single_strategy :
    (findRealDeployerViaRPC envC4 "MintM" "FallbackCreator").1 = "FallbackCreator" ∧
    (txC4.innerInstructions.any (fun g => g.any (fun ix =>
        ix.ixType == "transfer" && ix.program == "system" &&
          !(isKnownProgramOrAuthority ix.sourceAcct)))) = true ∧
    txC4.logMessages = ["Program log: creator: RealHumanCreatorWallet"] ∧
    isKnownProgramOrAuthority "RealHumanCreatorWallet" = false ∧
    "FallbackCreator" ≠ "RealHumanCreatorWallet" :=
  ⟨by decide, by decide, rfl, by decide, by decide⟩

/-- C5: neither RPC path paginates.  getDeployerInfoViaRPC issues exactly
one getSignaturesForAddress request (limit 1000) and
findRealDeployerViaRPC exactly one (limit 1), for every environment —
including envC5, whose gateway always answers with a full batch of the
requested size; there the analyzer still performs a single signature
fetch (not up to 20 batches) and terminates with a null-funder result. -/
theorem signature_fetch_single_batch :
    (∀ env w, ((getDeployerInfoViaRPC env w).2.countP isSigFetchCall) = 1) ∧
    (∀ env m c, ((findRealDeployerViaRPC env m c).2.countP isSigFetchCall) = 1) ∧
    (getDeployerInfoViaRPC envC5 "WalletW").1.fundedBy = none := by
  refine ⟨?_, ?_, by decide⟩
  · intro env w
    simp only [getDeployerInfoViaRPC]
    repeat' split
    all_goals rfl
  · intro env m c
    simp only [findRealDeployerViaRPC]
    repeat' split
    all_goals rfl

/-- C6 counterexample: at envC6 the wallet has one transaction and no
qualifying funding transfer, so no funding source is found; fundedBy is
null but fundingTx is the oldest transaction's signature, not null. -/
theorem getDeployerInfo_fundingTx_counterexample :
    (getDeployerInfo envC6 "WalletW").1.fundedBy = none ∧
    (getDeployerInfo envC6 "WalletW").1.fundingTx = some "OldestTxSig" :=
  ⟨by decide, by decide⟩

/-- C6 (amended): getDeployerInfo is total (every backend throw is
caught) and returns the all-null record under total backend failure; when
transactions exist but no funding source is found, fundedBy is null while
fundingTx defaults to the oldest transaction's signature. -/
theorem getDeployerInfo_total_nulls :
    (∀ env w, AllBackendsFail env → (getDeployerInfo env w).1 = ⟨none, none, none⟩) ∧
    (∀ env w txs oldest rest, env.heliusTxs w 1000 = some txs →
      sortTs txs = oldest :: rest →
      findFunding w (oldest :: rest) = none →
      ∃ age, getDeployerInfoViaHelius env w
        = (Except.ok ⟨age, none, oldest.signature⟩, [Call.heliusFetch w 1000])) := by
  constructor
  · intro env w h
    obtain ⟨h1, h2, _⟩ := h
    rw [getDeployerInfo]
    split
    · rw [getDeployerInfoViaHelius, h1]
      simp only
      rw [getDeployerInfoViaRPC, h2]
    · rw [getDeployerInfoViaRPC, h2]
  · intro env w txs oldest rest hH hS hF
    refine ⟨if oldest.timestamp != 0 then some (ageInDays env.nowMs oldest.timestamp)
        else none, ?_⟩
    simp only [getDeployerInfoViaHelius, hH, hS, hF]

/-- Witness for the amended C6 at concrete environments. -/
theorem getDeployerInfo_total_nulls_witness :
    (getDeployerInfo envAllFail "WalletW").1 = ⟨none, none, none⟩ ∧
    (∃ age, getDeployerInfoViaHelius envC6 "WalletW"
      = (Except.ok ⟨age, none, txC6.signature⟩, [Call.heliusFetch "WalletW" 1000])) :=
  ⟨getDeployerInfo_total_nulls.1 envAllFail "WalletW"
     ⟨fun _ _ => rfl, fun _ _ => rfl, fun _ => rfl⟩,
   getDeployerInfo_total_nulls.2 envC6 "WalletW" [txC6] txC6 [] rfl (by decide) rfl⟩

/-- Witness for C9: a denylisted authority, a sysvar-pattern address, and
a random 44-character base58 address not in the denylist. -/
theorem isKnownProgramOrAuthority_spec_witness :
    isKnownProgramOrAuthority "TSLvdd1pWpHVjahSpsvCXUbgwsL3JAcvokwaKt1eokM" = true ∧
    isKnownProgramOrAuthority "SysvarC1ock11111111111111111111111111111111" = true ∧
    isKnownProgramOrAuthority "GJRs4FwHtemZ5ZE9x3FNvJ8TMwitKTh21yxdRPqn7npE" = false :=
  ⟨isKnownProgramOrAuthority_spec.2.1 _ (by decide),
   isKnownProgramOrAuthority_spec.2.2.1 _ (by decide),
   isKnownProgramOrAuthority_spec.2.2.2 _ (by decide) (by decide) (by decide) (by decide)⟩

/-- Helper: the per-transaction transfer scan is List.find? with the
qualifying predicate. -/
theorem firstQualifyingTransfer_eq_find? (w : String) :
    ∀ trs : List NativeTransfer,
      firstQualifyingTransfer w trs = trs.find? (isQualifyingTransfer w) := by
  intro trs
  induction trs with
  | nil => rfl
  | cons tr rest ih =>
    rw [firstQualifyingTransfer]
    cases h : isQualifyingTransfer w tr
    · rw [if_neg (by simp [h]), List.find?_cons_of_neg _ (by simp [h]), ih]
    · rw [if_pos (by simp [h]), List.find?_cons_of_pos _ (by simp [h])]

/-- Helper: pairing each transfer with its transaction signature commutes
with find?. -/
theorem find?_heliusTxTransfers (w : String) (tx : HeliusTx) :
    (heliusTxTransfers tx).find? (fun p => isQualifyingTransfer w p.2)
      = (tx.nativeTransfers.find? (isQualifyingTransfer w)).map
          (fun tr => (tx.signature, tr)) := by
  rw [heliusTxTransfers, List.find?_map]
  rfl

/-- Helper: the funding scan of the code equals the spec-level first
qualifying transfer over the flattened transaction list. -/
theorem findFunding_eq_specFirstFunding (w : String) :
    ∀ l : List HeliusTx, findFunding w l = specFirstFunding w l := by
  intro l
  induction l with
  | nil => rfl
  | cons tx rest ih =>
    rw [findFunding, firstQualifyingTransfer_eq_find?, specFirstFunding,
      List.flatMap_cons, List.find?_append, find?_heliusTxTransfers]
    cases h : tx.nativeTransfers.find? (isQualifyingTransfer w) with
    | none => simp [ih, specFirstFunding]
    | some tr => simp

/-- Helper: the head of an insertion is the new element or the old head. -/
theorem insertTs_head?_cases (t : HeliusTx) :
    ∀ l : List HeliusTx, (insertTs t l).head? = some t ∨ (insertTs t l).head? = l.head? := by
  intro l
  cases l with
  | nil => left; rfl
  | cons h rest =>
    rw [insertTs]
    split
    · right; rfl
    · left; rfl

/-- Helper: inserting into a timestamp-sorted list keeps it sorted. -/
theorem insertTs_chain (t : HeliusTx) :
    ∀ l : List HeliusTx,
      List.Chain' (fun a b => a.timestamp ≤ b.timestamp) l →
      List.Chain' (fun a b => a.timestamp ≤ b.timestamp) (insertTs t l) := by
  intro l
  induction l with
  | nil => intro _; simp [insertTs]
  | cons h rest ih =>
    intro hc
    rw [insertTs]
    split
    · rename_i hle
      rw [List.chain'_cons']
      constructor
      · intro y hy
        rcases insertTs_head?_cases t rest with hh | hh
        · rw [hh] at hy
          cases hy
          exact hle
        · rw [hh] at hy
          exact (List.chain'_cons'.mp hc).1 y hy
      · exact ih (List.chain'_cons'.mp hc).2
    · rename_i hgt
      rw [List.chain'_cons]
      exact ⟨Nat.le_of_lt (Nat.lt_of_not_le hgt), hc⟩

/-- Helper: folding insertions over any sorted accumulator is sorted. -/
theorem sortTs_sorted_aux :
    ∀ (l acc : List HeliusTx),
      List.Chain' (fun a b => a.timestamp ≤ b.timestamp) acc →
      List.Chain' (fun a b => a.timestamp ≤ b.timestamp)
        (l.foldl (fun acc2 t => insertTs t acc2) acc) := by
  intro l
  induction l with
  | nil => intro acc h; simpa using h
  | cons t rest ih =>
    intro acc h
    rw [List.foldl_cons]
    exact ih _ (insertTs_chain t acc h)

/-- Helper: sortTs output is timestamp-ascending. -/
theorem sortTs_sorted (l : List HeliusTx) :
    List.Chain' (fun a b => a.timestamp ≤ b.timestamp) (sortTs l) :=
  sortTs_sorted_aux l [] List.chain'_nil

/-- C7: the funding scan equals the spec-level first qualifying transfer
(destination the wallet, non-empty source different from the wallet,
amount strictly above the 10000-lamport dust threshold) over the scanned
list; that list, sortTs of the fetched transactions, is chronologically
(timestamp-)ascending; and when a first qualifying transfer exists, the
analyzer records its source as fundedBy and its transaction's signature
as fundingTx. -/
theorem getDeployerInfo_funding_first :
    (∀ w l, findFunding w l = specFirstFunding w l) ∧
    (∀ l, List.Chain' (fun a b => a.timestamp ≤ b.timestamp) (sortTs l)) ∧
    (∀ env w txs src sig, env.heliusTxs w 1000 = some txs →
      specFirstFunding w (sortTs txs) = some (src, sig) →
      ∃ age, getDeployerInfoViaHelius env w
        = (Except.ok ⟨age, some src, sig⟩, [Call.heliusFetch w 1000])) := by
  refine ⟨findFunding_eq_specFirstFunding, sortTs_sorted, ?_⟩
  intro env w txs src sig hH hF
  cases hS : sortTs txs with
  | nil => rw [hS] at hF; exact absurd hF (by simp [specFirstFunding])
  | cons oldest rest =>
    rw [hS] at hF
    refine ⟨if oldest.timestamp != 0 then some (ageInDays env.nowMs oldest.timestamp)
        else none, ?_⟩
    simp only [getDeployerInfoViaHelius, hH, hS, findFunding_eq_specFirstFunding, hF]

/-- Witness for C7 at a concrete environment with one qualifying
transfer. -/
theorem getDeployerInfo_funding_first_witness :
    ∃ age, getDeployerInfoViaHelius envC7 "WalletW"
      = (Except.ok ⟨age, some "FunderWallet", some "FundingSig"⟩,
         [Call.heliusFetch "WalletW" 1000]) :=
  getDeployerInfo_funding_first.2.2 envC7 "WalletW" [txC7] "FunderWallet"
    (some "FundingSig") rfl (by decide)

/-- Helper: adding c to a dividend moves a (positive-divisor) Euclidean
quotient by c / d or by c / d + 1. -/
theorem ediv_add_between (a c d : Int) (hd : 0 < d) :
    (a + c) / d = a / d + c / d ∨ (a + c) / d = a / d + c / d + 1 := by
  have h0 : 0 ≤ a % d := Int.emod_nonneg a (by omega)
  have h1 : a % d < d := Int.emod_lt_of_pos a hd
  have hq : d * (a / d) + a % d = a := Int.ediv_add_emod a d
  have hsplit : a + c = a % d + c + d * (a / d) := by linarith
  rw [hsplit, Int.add_mul_ediv_left _ _ (by omega : d ≠ 0)]
  have lo : c / d ≤ (a % d + c) / d := Int.ediv_le_ediv hd (by linarith)
  have hi : (a % d + c) / d ≤ c / d + 1 := by
    have h2 : a % d + c ≤ c + d * 1 := by linarith
    have h3 : (a % d + c) / d ≤ (c + d * 1) / d := Int.ediv_le_ediv hd h2
    rwa [Int.add_mul_ediv_left _ _ (by omega : d ≠ 0)] at h3
  rcases eq_or_lt_of_le lo with h2 | h2
  · left; linarith
  · right
    have h3 : c / d + 1 ≤ (a % d + c) / d := h2
    have h4 : (a % d + c) / d = c / d + 1 := le_antisymm hi h3
    linarith

/-- Helper: ageInDays at second-granularity wall-clock times, written
over Euclidean division (the dividend sign does not matter for the
statement since fdiv equals ediv for the positive divisor). -/
theorem ageInDays_as_ediv (tsSec n : Nat) :
    ageInDays (1000 * n) tsSec
      = (1000 * (n : Int) - 1000 * (tsSec : Int)) / 86400000 := by
  rw [ageInDays, Int.fdiv_eq_ediv _ (by norm_num)]
  push_cast
  ring_nf

/-- C8 (amended): for a fixed oldest timestamp, the age computed at a
later wall-clock time T2 (seconds) is at least the age computed at T1,
and the two differ by floor((T2 - T1) / 86400) or by that plus one; the
exact-difference form of the claim fails because floors do not subtract
exactly. -/
theorem ageInDays_monotone (tsSec T1 T2 : Nat) (h : T1 < T2) :
    ageInDays (1000 * T1) tsSec ≤ ageInDays (1000 * T2) tsSec ∧
    (ageInDays (1000 * T2) tsSec - ageInDays (1000 * T1) tsSec
        = ((T2 : Int) - (T1 : Int)) / 86400 ∨
     ageInDays (1000 * T2) tsSec - ageInDays (1000 * T1) tsSec
        = ((T2 : Int) - (T1 : Int)) / 86400 + 1) := by
  have hd : (0 : Int) < 86400000 := by norm_num
  have hT : (T1 : Int) ≤ (T2 : Int) := by exact_mod_cast le_of_lt h
  have hkey := ediv_add_between (1000 * (T1 : Int) - 1000 * (tsSec : Int))
      (1000 * ((T2 : Int) - (T1 : Int))) 86400000 hd
  have hc : 1000 * ((T2 : Int) - (T1 : Int)) / 86400000
      = ((T2 : Int) - (T1 : Int)) / 86400 := by
    have h86 : (86400000 : Int) = 1000 * 86400 := by norm_num
    rw [h86, Int.mul_ediv_mul_of_pos _ _ (by norm_num : (0 : Int) < 1000)]
  have hsum : 1000 * (T1 : Int) - 1000 * (tsSec : Int)
        + 1000 * ((T2 : Int) - (T1 : Int))
      = 1000 * (T2 : Int) - 1000 * (tsSec : Int) := by ring
  rw [hsum, hc] at hkey
  constructor
  · rw [ageInDays_as_ediv, ageInDays_as_ediv]
    exact Int.ediv_le_ediv hd (by linarith)
  · rw [ageInDays_as_ediv, ageInDays_as_ediv]
    rcases hkey with hk | hk
    · left; linarith
    · right; linarith

/-- Witness for the amended C8 at tsSec = 0, T1 = 0, T2 = 86400. -/
theorem ageInDays_monotone_witness :
    ageInDays (1000 * 0) 0 ≤ ageInDays (1000 * 86400) 0 ∧
    (ageInDays (1000 * 86400) 0 - ageInDays (1000 * 0) 0
        = (((86400 : Nat) : Int) - ((0 : Nat) : Int)) / 86400 ∨
     ageInDays (1000 * 86400) 0 - ageInDays (1000 * 0) 0
        = (((86400 : Nat) : Int) - ((0 : Nat) : Int)) / 86400 + 1) :=
  ageInDays_monotone 0 0 86400 (by decide)

/-- C8 counterexample: at tsSec = 0, T1 = 43200 (half a day), T2 = 86400
(one day), the ages are 0 and 1, but floor((T2 - T1) / 86400) = 0, so the
claimed exact difference fails. -/
theorem ageInDays_exact_delta_counterexample :
    ageInDays (1000 * 86400) 0 - ageInDays (1000 * 43200) 0
      ≠ ((86400 : Int) - 43200) / 86400 := by decide

/-- Helper: every token appended by the transfer loop either was already
accumulated or stems from a processed transfer whose mint lower-cases to
a "pump"-suffixed string. -/
theorem processTransfers_mem (e : String) (ts : Nat) :
    ∀ (trs : List TokenTransfer) (seen : List String) (acc : List CreatedToken)
      (tok : CreatedToken),
      tok ∈ (processTransfers e ts trs seen acc).2 →
      tok ∈ acc ∨ ∃ tr ∈ trs, tr.mint = tok.mint ∧
        strEndsWith (strToLower tr.mint) "pump" = true := by
  intro trs
  induction trs with
  | nil => intro seen acc tok h; left; exact h
  | cons tr rest ih =>
    intro seen acc tok h
    rw [processTransfers] at h
    split at h
    · rename_i hcond
      split at h
      · rcases ih _ _ _ h with hin | ⟨tr2, htr2, hm⟩
        · rcases List.mem_append.mp hin with hin2 | hin2
          · left; exact hin2
          · right
            have heq : tok = ⟨tr.mint, if ts != 0 then some ts else none⟩ :=
              List.mem_singleton.mp hin2
            refine ⟨tr, List.mem_cons_self tr rest, ?_, ?_⟩
            · rw [heq]
            · exact (Bool.and_eq_true _ _ |>.mp hcond).2
        · right; exact ⟨tr2, List.mem_cons_of_mem _ htr2, hm⟩
      · rcases ih _ _ _ h with hin | ⟨tr2, htr2, hm⟩
        · left; exact hin
        · right; exact ⟨tr2, List.mem_cons_of_mem _ htr2, hm⟩
    · rcases ih _ _ _ h with hin | ⟨tr2, htr2, hm⟩
      · left; exact hin
      · right; exact ⟨tr2, List.mem_cons_of_mem _ htr2, hm⟩

/-- Helper: every token produced by the transaction loop either was
already accumulated or stems from a PUMP_FUN CREATE transaction of the
queried wallet. -/
theorem processTxs_mem (d e : String) :
    ∀ (l : List HeliusTx) (seen : List String) (acc : List CreatedToken)
      (tok : CreatedToken),
      tok ∈ (processTxs d e l seen acc).2 →
      tok ∈ acc ∨ ∃ tx ∈ l, tx.feePayer = d ∧ tx.source = "PUMP_FUN" ∧
        tx.txType = "CREATE" ∧ ∃ tr ∈ tx.tokenTransfers, tr.mint = tok.mint ∧
          strEndsWith (strToLower tr.mint) "pump" = true := by
  intro l
  induction l with
  | nil => intro seen acc tok h; left; exact h
  | cons tx rest ih =>
    intro seen acc tok h
    rw [processTxs] at h
    split at h
    · rename_i hcond
      cases hp : processTransfers e tx.timestamp tx.tokenTransfers seen acc with
      | mk seen2 acc2 =>
        rw [hp] at h
        rcases ih _ _ _ h with hin | ⟨tx2, htx2, hrest⟩
        · have hmem := processTransfers_mem e tx.timestamp tx.tokenTransfers seen acc tok
          rw [hp] at hmem
          rcases hmem hin with hin2 | ⟨tr, htr, hm⟩
          · left; exact hin2
          · right
            have hc1 := Bool.and_eq_true _ _ |>.mp hcond
            have hc2 := Bool.and_eq_true _ _ |>.mp hc1.1
            exact ⟨tx, List.mem_cons_self tx rest, eq_of_beq hc2.1, eq_of_beq hc2.2,
              eq_of_beq hc1.2, ⟨tr, htr, hm⟩⟩
        · right; exact ⟨tx2, List.mem_cons_of_mem _ htx2, hrest⟩
    · rcases ih _ _ _ h with hin | ⟨tx2, htx2, hrest⟩
      · left; exact hin
      · right; exact ⟨tx2, List.mem_cons_of_mem _ htx2, hrest⟩

/-- C10: every token returned by getDeployerCreatedTokens comes from a
fetched transaction whose feePayer is the queried wallet, tagged source
PUMP_FUN and type CREATE, and its mint is one of that transaction's token
transfers and ends case-insensitively in "pump"; tokens from any other
platform or without that suffix are never included. -/
theorem getDeployerCreatedTokens_sound (env : Env) (deployerAddress excludeToken : String)
    (tok : CreatedToken)
    (h : tok ∈ (getDeployerCreatedTokens env deployerAddress excludeToken).1) :
    ∃ txs, env.heliusTxs deployerAddress 100 = some txs ∧
      ∃ tx ∈ txs, tx.feePayer = deployerAddress ∧ tx.source = "PUMP_FUN" ∧
        tx.txType = "CREATE" ∧ ∃ tr ∈ tx.tokenTransfers, tr.mint = tok.mint ∧
          strEndsWith (strToLower tr.mint) "pump" = true := by
  rw [getDeployerCreatedTokens] at h
  split at h
  · exact absurd h (by simp)
  · cases hH : env.heliusTxs deployerAddress 100 with
    | none => rw [hH] at h; exact absurd h (by simp)
    | some txs =>
      rw [hH] at h
      refine ⟨txs, rfl, ?_⟩
      rcases processTxs_mem deployerAddress (strToLower excludeToken) txs [] [] tok h with
        hin | hex
      · exact absurd hin (by simp)
      · exact hex

/-- Witness for C10 at a concrete environment with one CREATE
transaction. -/
theorem getDeployerCreatedTokens_sound_witness :
    ∃ txs, envC10.heliusTxs "DeployerD" 100 = some txs ∧
      ∃ tx ∈ txs, tx.feePayer = "DeployerD" ∧ tx.source = "PUMP_FUN" ∧
        tx.txType = "CREATE" ∧ ∃ tr ∈ tx.tokenTransfers,
          tr.mint = (⟨"AbCdpump", some 77⟩ : CreatedToken).mint ∧
          strEndsWith (strToLower tr.mint) "pump" = true :=
  getDeployerCreatedTokens_sound envC10 "DeployerD" "OtherMint"
    ⟨"AbCdpump", some 77⟩ (by decide)

end FairScore
